import Mathlib

/-!
Verification development for the state-validation and dispute layer of the
nightfall_3 optimistic rollup.  The definitions below embed, as executable
Lean functions, the challenge coordinator of
`nightfall-optimist/src/services/challenges.mjs` (shown concatenated into
`src/nightfall-optimist/src/routes/proposer.mjs`), the `BlockProposed`
event handler of `block-proposed.mjs` (same file), and — where the
deciding code of the repository is not part of the sources provided —
models built from the specification, each marked `Modelled from the spec:`
in its doc comment.  Machine-level hashes are represented by naturals;
the commit hash of a payload is represented by the payload value itself
(an ideal, injective hash).
-/

namespace Nightfall

/-- Hashes (block hashes, transaction hashes, commitments, nullifiers,
roots) are opaque 32-byte words in the source; we model them as `Nat`. -/
abbrev Hash := Nat

/-- `config.ZERO`, the all-zero word used as the empty-leaf constant and
filtered out of commitment/nullifier lists by the source. -/
def ZERO : Hash := 0

/-- `config.TIMBER_HEIGHT`, the fixed Merkle-tree height. -/
def TIMBER_HEIGHT : Nat := 32

/-- An L2 transaction as used by the challenge coordinator: the fields of
`classes/transaction.mjs` that the embedded code reads.  The external
proof-verification oracle's verdict is carried as the field `proofOk`
(the oracle is out of scope per the spec, §6). -/
structure Tx where
  transactionHash : Hash
  transactionType : Nat
  commitments : List Hash
  nullifiers : List Hash
  historicRootBlockNumberL2 : List Int
  proof : Nat
  proofOk : Bool
deriving Repr, DecidableEq

/-- An L2 block record as stored by the optimist: `l1Reference` is the L1
block number the block was mined in (`null` once removed by a reorg). -/
structure Blk where
  blockHash : Hash
  previousBlockHash : Hash
  blockNumberL2 : Int
  root : Hash
  leafCount : Nat
  proposer : Nat
  transactionHashes : List Hash
  l1Reference : Option Nat
deriving Repr, DecidableEq

/-- A nullifier record of the store: `blockHash` is the block that mined
(stamped) it, `none` while unspent or unstamped. -/
structure NullRec where
  hash : Hash
  blockHash : Option Hash
deriving Repr, DecidableEq

/-- Modelled from the spec: the commitment-tree value of
`common-files/classes/timber.mjs` (not under the provided sources), §4.1:
`{leafCount, frontier, root}` with root a pure function of the ordered
leaf sequence. -/
structure Timber where
  leafCount : Nat
  root : Hash
  frontier : List Hash
deriving Repr, DecidableEq

/-- One hashing step folding a leaf into the running root; injectivity of
`Nat.pair` makes this an ideal collision-free hash. -/
def hashStep (r : Hash) (leaf : Hash) : Hash := Nat.pair r leaf

/-- Modelled from the spec: `Timber.statelessUpdate(tree, leaves)` (§4.1)
— computes a new tree value without mutating the argument; leafCount grows
by the number of leaves and the root folds the leaves in order. -/
def statelessUpdate (t : Timber) (leaves : List Hash) : Timber :=
  { leafCount := t.leafCount + leaves.length
    root := leaves.foldl hashStep t.root
    frontier := [leaves.foldl hashStep t.root] }

/-- The empty genesis tree. -/
def emptyTimber : Timber := { leafCount := 0, root := 0, frontier := [] }

/-- The abstract keyed store of §6: blocks, transactions, nullifier
records, saved trees (keyed by L2 block number) and challenge-commit
records.  A commit record `{commitHash → payload}` is represented by the
payload value itself, the commit hash being an ideal hash of it. -/
structure Store (payload : Type) where
  blocks : List Blk
  transactions : List Tx
  nullifiers : List NullRec
  trees : List (Int × Timber)
  commits : List payload
deriving Repr

/-- Modelled from the spec: `getBlockByBlockNumberL2` of `database.mjs`
(not under the provided sources) — the store lookup by L2 block number. -/
def getBlockByBlockNumberL2 {π : Type} (s : Store π) (n : Int) : Option Blk :=
  s.blocks.find? (fun b => b.blockNumberL2 = n)

/-- Modelled from the spec: `getBlockByBlockHash` of `database.mjs`. -/
def getBlockByBlockHash {π : Type} (s : Store π) (h : Hash) : Option Blk :=
  s.blocks.find? (fun b => b.blockHash = h)

/-- Modelled from the spec: `getBlockByTransactionHash` of `database.mjs`
— every block whose transaction list contains the hash. -/
def getBlockByTransactionHash {π : Type} (s : Store π) (th : Hash) : List Blk :=
  s.blocks.filter (fun b => b.transactionHashes.contains th)

/-- Modelled from the spec: `getTransactionsByTransactionHashes` of
`database.mjs` — resolve a list of transaction hashes in the store. -/
def getTransactionsByTransactionHashes {π : Type} (s : Store π) (ths : List Hash) : List Tx :=
  ths.filterMap (fun th => s.transactions.find? (fun t => t.transactionHash = th))

/-- Modelled from the spec: `getTreeByRoot` of `database.mjs` — the saved
tree whose root matches. -/
def getTreeByRoot {π : Type} (s : Store π) (r : Hash) : Option Timber :=
  ((s.trees.find? (fun p => p.2.root = r)).map (fun p => p.2))

/-- Modelled from the spec: `retrieveMinedNullifiers` of `database.mjs` —
the nullifier records carrying a stamping block hash, in store order. -/
def retrieveMinedNullifiers {π : Type} (s : Store π) : List NullRec :=
  s.nullifiers.filter (fun r => r.blockHash.isSome)

/-- Modelled from the spec: `getLatestTree` of `database.mjs` — the most
recently saved tree, or the empty tree at genesis. -/
def getLatestTree {π : Type} (s : Store π) : Timber :=
  match s.trees.head? with
  | some p => p.2
  | none => emptyTimber

/-- Stamp a single nullifier: if a record for the hash exists it is
stamped only while unstamped (the spec's at-most-one-live-stamp
invariant, §3); otherwise a freshly stamped record is appended. -/
def stampOne (recs : List NullRec) (h : Hash) (n : Hash) : List NullRec :=
  if recs.any (fun r => r.hash = n) then
    recs.map (fun r => if r.hash = n ∧ r.blockHash = none then { r with blockHash := some h } else r)
  else recs ++ [{ hash := n, blockHash := some h }]

/-- Modelled from the spec: `stampNullifiers(nullifiers, blockHash)` of
`database.mjs` (§4.3) — associates each nullifier with the block that
spends it, never overwriting an existing stamp. -/
def stampNullifiers (recs : List NullRec) (ns : List Hash) (h : Hash) : List NullRec :=
  ns.foldl (fun acc n => stampOne acc h n) recs

/-- Modelled from the spec: `unstampNullifiers(blockHash)` (§4.3) — clears
the association for every nullifier stamped by that block. -/
def unstampNullifiers (recs : List NullRec) (h : Hash) : List NullRec :=
  recs.map (fun r => if r.blockHash = some h then { r with blockHash := none } else r)

/-- Modelled from the spec: `saveBlock` of `database.mjs` — upsert by
block hash, recording the L1 reference the event carried. -/
def saveBlockStore {π : Type} (s : Store π) (l1 : Nat) (b : Blk) : Store π :=
  let b' := { b with l1Reference := some l1 }
  if s.blocks.any (fun x => x.blockHash = b.blockHash) then
    { s with blocks := s.blocks.map (fun x => if x.blockHash = b.blockHash then b' else x) }
  else { s with blocks := s.blocks ++ [b'] }

/-- Modelled from the spec: `saveCommit(commitHash, txDataToSign)` of
`database.mjs` — persist the `{commitHash → payload}` record; an upsert
keyed by the (ideal) commit hash, i.e. by the payload value. -/
def saveCommit {π : Type} [DecidableEq π] (s : Store π) (p : π) : Store π :=
  if s.commits.any (fun c => c = p) then s else { s with commits := s.commits ++ [p] }

/-! ## The challenge payloads built by `createChallenge` (challenges.mjs)

One constructor per `challengeContractInstance.methods.…` call of the
source, carrying exactly the arguments the source passes. -/

/-- The raw challenge transaction (`txDataToSign`) produced by each arm of
the seven-way switch in `createChallenge`. -/
inductive ChallengeTx where
  | newRootCorrect (priorBlock : Blk) (priorTxs : List Tx) (frontier : List Hash)
      (block : Blk) (txs : List Tx) (salt : Nat)
  | noDuplicateTransaction (block : Blk) (block2 : Blk) (txs txs2 : List Tx)
      (transactionIndex1 transactionIndex2 : Nat) (salt : Nat)
  | transactionType (block : Blk) (txs : List Tx) (transactionIndex : Nat) (salt : Nat)
  | historicRoot (block : Blk) (txs : List Tx) (transactionIndex : Nat) (salt : Nat)
  | proofVerification0 (block : Blk) (txs : List Tx) (transactionIndex : Nat)
      (proof : Nat) (salt : Nat)
  | proofVerification2 (block : Blk) (txs : List Tx) (transactionIndex : Nat)
      (historicBlock1 historicBlock2 : Blk) (historicTxs1 historicTxs2 : List Tx)
      (proof : Nat) (salt : Nat)
  | proofVerificationOther (block : Blk) (txs : List Tx) (transactionIndex : Nat)
      (historicBlock : Blk) (historicTxs : List Tx) (proof : Nat) (salt : Nat)
  | nullifier (block : Blk) (txs : List Tx) (currentTxIdx currentNullifierIdx : Nat)
      (oldBlock : Blk) (oldTxs : List Tx) (oldTxIdx oldNullifierIdx : Nat) (salt : Nat)
  | leafCountCorrect (priorBlock : Blk) (priorTxs : List Tx)
      (block : Blk) (txs : List Tx) (salt : Nat)
deriving Repr, DecidableEq

/-- The store instantiated at the coordinator's payload type. -/
abbrev CStore := Store (Option ChallengeTx)

/-- A JavaScript runtime failure thrown while building or sending a
challenge: either an explicit `new Error(message)` of the source, or the
`TypeError` raised by dereferencing / assigning on `null`/`undefined`. -/
inductive JsError where
  | errorMsg (msg : String)
  | typeErrorNull
deriving Repr, DecidableEq

/-- The `BlockError` value (`classes/block-error.mjs`) delivered to
`createChallenge`: the invalidity code plus the metadata fields the
seven-way switch destructures. -/
structure BlockErrorData where
  code : Nat
  transactionHashIndex : Nat := 0
  transactionHash : Hash := 0
deriving Repr, DecidableEq

/-- First transaction index and nullifier index at which `h` occurs — the
`map … findIndex … filter … flat` index extraction of `createChallenge`
case 6, which keeps the first matching pair. -/
def firstNullifierIndexAux (h : Hash) : List Tx → Nat → Option (Nat × Nat)
  | [], _ => none
  | t :: rest, i =>
    match t.nullifiers.findIdx? (fun x => x = h) with
    | some j => some (i, j)
    | none => firstNullifierIndexAux h rest (i + 1)

/-- Entry point of the case-6 index extraction. -/
def firstNullifierIndex (txs : List Tx) (h : Hash) : Option (Nat × Nat) :=
  firstNullifierIndexAux h txs 0

/-- `createChallenge` case 0 (challenge wrong root): fetch the prior
block (explicit `Error` if absent), its transactions, the block two
earlier — on `null` the source assigns `priorPriorBlock.root = ZERO`,
which is a `TypeError` — and the tree holding that block's frontier,
padded with `ZERO` to `TIMBER_HEIGHT + 1` entries. -/
def buildCase0 (s : CStore) (block : Blk) (txs : List Tx) (salt : Nat) :
    Except JsError ChallengeTx :=
  match getBlockByBlockNumberL2 s (block.blockNumberL2 - 1) with
  | none => .error (.errorMsg "Could not find prior block")
  | some priorBlock =>
    let priorBlockTransactions := getTransactionsByTransactionHashes s priorBlock.transactionHashes
    match getBlockByBlockNumberL2 s (block.blockNumberL2 - 2) with
    | none => .error .typeErrorNull
    | some priorPriorBlock =>
      match getTreeByRoot s priorPriorBlock.root with
      | none => .error .typeErrorNull
      | some priorPriorTree =>
        let frontierToValidatePreviousBlock :=
          priorPriorTree.frontier ++
            List.replicate (TIMBER_HEIGHT + 1 - priorPriorTree.frontier.length) ZERO
        .ok (.newRootCorrect priorBlock priorBlockTransactions
          frontierToValidatePreviousBlock block txs salt)

/-- `createChallenge` case 1 (duplicate transaction): find the other
block containing the duplicated hash (destructuring an empty filter
result yields `undefined`, dereferenced immediately: `TypeError`), and
the duplicate's index there (explicit `Error` when `indexOf` gives -1). -/
def buildCase1 (s : CStore) (block : Blk) (txs : List Tx) (err : BlockErrorData)
    (salt : Nat) : Except JsError ChallengeTx :=
  let transactionIndex1 := err.transactionHashIndex
  let transactionHash1 := err.transactionHash
  match ((getBlockByTransactionHash s transactionHash1).filter
      (fun b => b.blockHash ≠ block.blockHash)).head? with
  | none => .error .typeErrorNull
  | some block2 =>
    let transactions2 := getTransactionsByTransactionHashes s block2.transactionHashes
    match (transactions2.map (fun t => t.transactionHash)).findIdx?
        (fun th => th = transactionHash1) with
    | none => .error (.errorMsg "Could not find duplicate transaction")
    | some transactionIndex2 =>
      .ok (.noDuplicateTransaction block block2 txs transactions2
        transactionIndex1 transactionIndex2 salt)

/-- `createChallenge` case 4 (proof does not verify): three sub-branches
on the transaction's type, each pulling the historic blocks it needs; a
missing lookup is dereferenced by `Block.buildSolidityStruct`
(`TypeError`).  The type-2 branch resolves `block.transactionHashes` for
both historic inputs, exactly as the source does. -/
def buildCase4 (s : CStore) (block : Blk) (txs : List Tx) (err : BlockErrorData)
    (salt : Nat) : Except JsError ChallengeTx :=
  let i := err.transactionHashIndex
  match txs[i]? with
  | none => .error .typeErrorNull
  | some tx =>
    let uncompressedProof := tx.proof
    if tx.transactionType = 0 then
      .ok (.proofVerification0 block txs i uncompressedProof salt)
    else if tx.transactionType = 2 then
      match tx.historicRootBlockNumberL2 with
      | b1 :: b2 :: _ =>
        (match getBlockByBlockNumberL2 s b1, getBlockByBlockNumberL2 s b2 with
         | some historicBlock1, some historicBlock2 =>
           let historicTxs := getTransactionsByTransactionHashes s block.transactionHashes
           .ok (.proofVerification2 block txs i historicBlock1 historicBlock2
             historicTxs historicTxs uncompressedProof salt)
         | _, _ => .error .typeErrorNull)
      | _ => .error .typeErrorNull
    else
      match tx.historicRootBlockNumberL2 with
      | b0 :: _ =>
        (match getBlockByBlockNumberL2 s b0 with
         | some blockL2ContainingHistoricRoot =>
           let historicTxs := getTransactionsByTransactionHashes s
             blockL2ContainingHistoricRoot.transactionHashes
           .ok (.proofVerificationOther block txs i blockL2ContainingHistoricRoot
             historicTxs uncompressedProof salt)
         | none => .error .typeErrorNull)
      | _ => .error .typeErrorNull

/-- `createChallenge` case 6 (duplicate nullifier): filter the stored
mined nullifiers down to those occurring in the block — note the filter
is by inclusion only, it does not exclude records stamped by the block
under evaluation itself — pick the first, look up its stamping block and
extract the first matching (transaction, nullifier) index pair on both
sides.  When no stored mined nullifier matches, `txDataToSign` is left
`undefined` (`none`). -/
def buildCase6 (s : CStore) (block : Blk) (txs : List Tx) (salt : Nat) :
    Except JsError (Option ChallengeTx) :=
  let storedMinedNullifiers := retrieveMinedNullifiers s
  let blockNullifiers := (txs.map (fun t => t.nullifiers)).flatten
  let alreadyMinedNullifiers :=
    storedMinedNullifiers.filter (fun sN => blockNullifiers.contains sN.hash)
  match alreadyMinedNullifiers.head? with
  | none => .ok none
  | some n =>
    match n.blockHash with
    | none => .ok none
    | some nb =>
      match getBlockByBlockHash s nb with
      | none => .error .typeErrorNull
      | some oldBlock =>
        let oldBlockTransactions :=
          getTransactionsByTransactionHashes s oldBlock.transactionHashes
        match firstNullifierIndex oldBlockTransactions n.hash,
            firstNullifierIndex txs n.hash with
        | some (oldTxIdx, oldNullifierIdx), some (currentTxIdx, currentNullifierIdx) =>
          .ok (some (.nullifier block txs currentTxIdx currentNullifierIdx
            oldBlock oldBlockTransactions oldTxIdx oldNullifierIdx salt))
        | _, _ => .error .typeErrorNull

/-- `createChallenge` case 7 (incorrect leaf count): the prior block and
its transactions (`null.transactionHashes` is a `TypeError`). -/
def buildCase7 (s : CStore) (block : Blk) (txs : List Tx) (salt : Nat) :
    Except JsError ChallengeTx :=
  match getBlockByBlockNumberL2 s (block.blockNumberL2 - 1) with
  | none => .error .typeErrorNull
  | some priorBlockL2 =>
    let priorBlockTransactions :=
      getTransactionsByTransactionHashes s priorBlockL2.transactionHashes
    .ok (.leafCountCorrect priorBlockL2 priorBlockTransactions block txs salt)

/-- The seven-way switch of `createChallenge` assembling `txDataToSign`:
cases 2 and 3 build directly from the metadata; the `default` arm leaves
`txDataToSign` `undefined` (`none`). -/
def buildChallengeTx (s : CStore) (block : Blk) (txs : List Tx)
    (err : BlockErrorData) (salt : Nat) : Except JsError (Option ChallengeTx) :=
  match err.code with
  | 0 => (buildCase0 s block txs salt).map some
  | 1 => (buildCase1 s block txs err salt).map some
  | 2 => .ok (some (.transactionType block txs err.transactionHashIndex salt))
  | 3 => .ok (some (.historicRoot block txs err.transactionHashIndex salt))
  | 4 => (buildCase4 s block txs err salt).map some
  | 6 => buildCase6 s block txs salt
  | 7 => (buildCase7 s block txs salt).map some
  | _ => .ok none

/-! ## The commit / reveal channel path (challenges.mjs) -/

/-- Observable events of the coordinator's channel path: the local
persist of a commit record, one warn-log line per closed-channel poll,
and the two websocket sends. -/
inductive ChalEv where
  | persistCommit (txDataToSign : Option ChallengeTx)
  | warnClosed
  | sendCommit (txDataToSign : Option ChallengeTx)
  | sendChallenge (txDataToSign : Option ChallengeTx)
deriving Repr, DecidableEq

/-- The readiness polls of the `while (!ws || ws.readyState !== OPEN)`
loop: `ready k` is whether the channel is open at the k-th check.  The
loop tolerates 101 failed polls (`tryCount++ > 100` compares the old
value) and throws on the 102nd, so checks happen at indices 0‥101. -/
def firstOpenAux (ready : Nat → Bool) : Nat → Nat → Option Nat
  | _, 0 => none
  | start, fuel + 1 => if ready start then some start else firstOpenAux ready (start + 1) fuel

/-- Index of the first successful poll within the retry cap, if any. -/
def firstOpen (ready : Nat → Bool) : Option Nat := firstOpenAux ready 0 102

/-- `commitToChallenge(txDataToSign)`: compute the commit hash, encode
the commit transaction, `await saveCommit(commitHash, txDataToSign)`,
then poll the websocket at a fixed 3-second interval; each failed poll
logs a warning, and past the cap `new Error('Websocket to challenger has
failed')` is thrown — otherwise the commit message is sent.  Returns the
updated store, the event trace in program order, and the error if one was
thrown. -/
def runCommitToChallenge (s : CStore) (ready : Nat → Bool)
    (txDataToSign : Option ChallengeTx) :
    CStore × List ChalEv × Option JsError :=
  let s' := saveCommit s txDataToSign
  match firstOpen ready with
  | some k =>
    (s', .persistCommit txDataToSign ::
      (List.replicate k .warnClosed ++ [.sendCommit txDataToSign]), none)
  | none =>
    (s', .persistCommit txDataToSign :: List.replicate 102 .warnClosed,
      some (.errorMsg "Websocket to challenger has failed"))

/-- `revealChallenge(txDataToSign)`: the same bounded polling loop, then
the challenge (reveal) message is sent; past the cap the source throws
`new Error('Websocket to $challenger has failed')` (sic).  The function
never consults the `makeChallenges` flag. -/
def revealChallenge (ready : Nat → Bool) (txDataToSign : Option ChallengeTx) :
    List ChalEv × Option JsError :=
  match firstOpen ready with
  | some k => (List.replicate k .warnClosed ++ [.sendChallenge txDataToSign], none)
  | none => (List.replicate 102 .warnClosed,
      some (.errorMsg "Websocket to $challenger has failed"))

/-- The outcome of `createChallenge` as seen by its caller: when the
`makeChallenges` flag is on, either the payload was built and handed to
the (unawaited, detached) `commitToChallenge` call, or building it threw;
when the flag is off only an info line is logged. -/
inductive CreateResult where
  | challenged (txDataToSign : Option ChallengeTx)
  | declined
  | errored (e : JsError)
deriving Repr, DecidableEq

/-- `createChallenge(block, transactions, err)`: gated on the module-wide
`makeChallenges` flag; when on, draws a fresh salt (here an explicit
argument), builds the payload for `err.code` and invokes
`commitToChallenge(txDataToSign)` without awaiting it.  A throw inside
the switch propagates to the caller; a failure of the detached commit
task does not. -/
def createChallenge (s : CStore) (makeChallenges : Bool) (block : Blk)
    (txs : List Tx) (err : BlockErrorData) (salt : Nat) : CreateResult :=
  if makeChallenges then
    match buildChallengeTx s block txs err salt with
    | .error e => .errored e
    | .ok p => .challenged p
  else .declined

/-- One full delivery of an invalidity to the coordinator: run
`createChallenge` and, when a payload was handed over, run the detached
`commitToChallenge` task to completion.  The third component is the
engine-side `CreateResult`, which a failure of the detached task never
alters. -/
def deliverInvalid (s : CStore) (ready : Nat → Bool) (makeChallenges : Bool)
    (block : Blk) (txs : List Tx) (err : BlockErrorData) (salt : Nat) :
    CStore × List ChalEv × CreateResult :=
  match createChallenge s makeChallenges block txs err salt with
  | .challenged p =>
    let r := runCommitToChallenge s ready p
    (r.1, r.2.1, .challenged p)
  | r => (s, [], r)

/-- The module state holding the challenge-production flag
(`let makeChallenges = …` in challenges.mjs). -/
structure CoordinatorCfg where
  makeChallenges : Bool
deriving Repr, DecidableEq

/-- `startMakingChallenges()`. -/
def startMakingChallenges (c : CoordinatorCfg) : CoordinatorCfg :=
  { c with makeChallenges := true }

/-- `stopMakingChallenges()`. -/
def stopMakingChallenges (c : CoordinatorCfg) : CoordinatorCfg :=
  { c with makeChallenges := false }

/-- A reveal run in the context of the module state: the source's
`revealChallenge` reads nothing from `makeChallenges`, which this
definition makes explicit by ignoring the configuration. -/
def revealRun (_c : CoordinatorCfg) (ready : Nat → Bool)
    (txDataToSign : Option ChallengeTx) : List ChalEv × Option JsError :=
  revealChallenge ready txDataToSign

/-! ## The block validity checker (modelled from the spec, §4.2) -/

/-- The three possible endings of `await checkBlock(block, transactions)`
inside the handler's `try`: normal return, a thrown `BlockError`, or any
other thrown failure. -/
inductive CheckOutcome where
  | valid
  | blockError (e : BlockErrorData)
  | failure (msg : String)
deriving Repr, DecidableEq

/-- All nullifiers of a candidate block's transactions, in order. -/
def blockNullifiersOf (txs : List Tx) : List Hash :=
  (txs.map (fun t => t.nullifiers)).flatten

/-- Index of the first transaction hash of the block that already exists
in another still-live block (check 1's condition). -/
def duplicateTxIdx (s : CStore) (block : Blk) : Option Nat :=
  block.transactionHashes.findIdx? (fun th =>
    s.blocks.any (fun b =>
      b.blockHash ≠ block.blockHash ∧ b.l1Reference.isSome ∧ b.transactionHashes.contains th))

/-- A transaction whose historic-root reference matches no recorded block
at that L2 number (check 3's condition). -/
def badHistoricTx (s : CStore) (t : Tx) : Bool :=
  t.historicRootBlockNumberL2.any (fun n => (getBlockByBlockNumberL2 s n).isNone)

/-- Whether a nullifier is live-stamped by a block other than the
candidate: a store record carries a stamping block hash different from
the candidate's, and that block's `l1Reference` is non-null (§4.3's
`liveConflicts`). -/
def liveStampedByOther (s : CStore) (blockHash : Hash) (nh : Hash) : Bool :=
  s.nullifiers.any (fun r => decide (r.hash = nh) &&
    match r.blockHash with
    | some h' => decide (h' ≠ blockHash) &&
        (match getBlockByBlockHash s h' with
         | some b => b.l1Reference.isSome
         | none => false)
    | none => false)

/-- The leaf count the candidate must declare: the previous block's leaf
count plus its commitment count (check 7's reference value). -/
def expectedLeafCount (s : CStore) (block : Blk) : Nat :=
  match getBlockByBlockNumberL2 s (block.blockNumberL2 - 1) with
  | none => 0
  | some p => p.leafCount +
      ((getTransactionsByTransactionHashes s p.transactionHashes).map
        (fun t => t.commitments.filter (fun c => c ≠ ZERO))).flatten.length

/-- Modelled from the spec: `checkBlock` of `services/check-block.mjs`
(not under the provided sources) — the pure decision function of §4.2,
running the seven checks in the fixed order 0,1,2,3,4,6,7 and
short-circuiting at the first failure.  Check 0 compares the declared
root against the post-application tree the handler saved. -/
def checkBlock (s : CStore) (updatedTimber : Timber) (block : Blk)
    (txs : List Tx) : CheckOutcome :=
  if updatedTimber.root ≠ block.root then .blockError { code := 0 }
  else match duplicateTxIdx s block with
  | some i => .blockError ⟨1, i, block.transactionHashes.getD i 0⟩
  | none =>
  match txs.findIdx? (fun t => decide (4 ≤ t.transactionType)) with
  | some i => .blockError { code := 2, transactionHashIndex := i }
  | none =>
  match txs.findIdx? (badHistoricTx s) with
  | some i => .blockError { code := 3, transactionHashIndex := i }
  | none =>
  match txs.findIdx? (fun t => !t.proofOk) with
  | some i => .blockError { code := 4, transactionHashIndex := i }
  | none =>
  match (blockNullifiersOf txs).findIdx? (liveStampedByOther s block.blockHash) with
  | some i => .blockError ⟨6, i, (blockNullifiersOf txs).getD i 0⟩
  | none =>
  if block.leafCount ≠ expectedLeafCount s block then .blockError { code := 7 }
  else .valid

/-! ## The BlockProposed event handler (block-proposed.mjs) -/

/-- The store/tree mutations and calls the handler performs, in program
order. -/
inductive HEffect where
  | saveBlockE (blockHash : Hash)
  | stampE (nullifiers : List Hash) (blockHash : Hash)
  | mempoolE
  | saveTreeE (blockNumberL2 : Int)
  | checkE
  | challengeE (code : Nat)
deriving Repr, DecidableEq

/-- How the handler's promise settles: normal return, a rejection
escaping through the `BlockError` branch because `await createChallenge`
itself threw, or the explicit re-throw of a non-`BlockError` failure. -/
inductive HandlerOutcome where
  | ok
  | crashed (e : JsError)
  | rethrown (msg : String)
deriving Repr, DecidableEq

/-- The nonzero nullifiers the handler stamps
(`tx.nullifiers.filter(nulls => nulls !== '0x00…0')`, flattened). -/
def handlerNullifiers (txs : List Tx) : List Hash :=
  (txs.map (fun t => t.nullifiers.filter (fun n => n ≠ ZERO))).flatten

/-- The nonzero commitments the handler appends to the tree
(`t.commitments.filter(c => c !== ZERO)`, flattened). -/
def handlerCommitments (txs : List Tx) : List Hash :=
  (txs.map (fun t => t.commitments.filter (fun c => c ≠ ZERO))).flatten

/-- The store after the handler's three mutations: `saveBlock`,
`stampNullifiers`, and `saveTree` of `Timber.statelessUpdate` applied to
the latest saved tree — all of which the source performs before
`checkBlock` runs. -/
def handlerPostStore (s : CStore) (currentBlockCount : Nat) (block : Blk)
    (txs : List Tx) : CStore :=
  let s1 := saveBlockStore s currentBlockCount block
  let s2 := { s1 with
    nullifiers := stampNullifiers s1.nullifiers (handlerNullifiers txs) block.blockHash }
  let updatedTimber := statelessUpdate (getLatestTree s2) (handlerCommitments txs)
  { s2 with trees := (block.blockNumberL2, updatedTimber) :: s2.trees }

/-- The post-application tree value the handler saves and the check-0/7
logic observes. -/
def handlerUpdatedTree (s : CStore) (currentBlockCount : Nat) (block : Blk)
    (txs : List Tx) : Timber :=
  let s1 := saveBlockStore s currentBlockCount block
  let s2 := { s1 with
    nullifiers := stampNullifiers s1.nullifiers (handlerNullifiers txs) block.blockHash }
  statelessUpdate (getLatestTree s2) (handlerCommitments txs)

/-- `blockProposedEventHandler(data)`: save the block, stamp its nonzero
nullifiers, drop its transactions from the mempool, compute and save the
stateless tree update, then run the checker; a thrown `BlockError` is
routed to `createChallenge` (whose own throw escapes the handler), any
other failure is re-thrown.  The checker is a parameter so the handler
can be examined under every checker verdict. -/
def blockProposedEventHandler (s : CStore) (makeChallenges : Bool) (salt : Nat)
    (checker : CStore → Timber → Blk → List Tx → CheckOutcome)
    (currentBlockCount : Nat) (block : Blk) (txs : List Tx) :
    CStore × List HEffect × HandlerOutcome :=
  let post := handlerPostStore s currentBlockCount block txs
  let updatedTimber := handlerUpdatedTree s currentBlockCount block txs
  let effs : List HEffect :=
    [.saveBlockE block.blockHash, .stampE (handlerNullifiers txs) block.blockHash,
     .mempoolE, .saveTreeE block.blockNumberL2, .checkE]
  match checker post updatedTimber block txs with
  | .valid => (post, effs, .ok)
  | .blockError e =>
    (post, effs ++ [.challengeE e.code],
      match createChallenge post makeChallenges block txs e salt with
      | .errored je => .crashed je
      | _ => .ok)
  | .failure msg => (post, effs, .rethrown msg)

/-! ## Chain reconciliation: Remove events (modelled from the spec, §4.5,
and doc/chain-reorgs.md) -/

/-- The reconciliation engine's view of L2 state: the live store slices
plus one tree snapshot per processed block, keyed by block hash, taken
immediately before that block's commitments were appended. -/
structure RecState where
  blocks : List Blk
  nullifiers : List NullRec
  tree : Timber
  snapshots : List (Hash × Timber)
deriving Repr

/-- Fatal reconciliation failures: a Remove for an unknown block
(`StructuralError`-class inconsistency) and a rollback target with no
snapshot (`TreeInconsistencyError`, §7). -/
inductive RecErr where
  | fatalMissingBlock
  | treeInconsistency
deriving Repr, DecidableEq

/-- Modelled from the spec: the Insert path of §4.5 as it affects the
reconciliation state — record the pre-append snapshot, persist the block
with its L1 reference, stamp its nullifiers and append its commitments. -/
def insertBlockEvent (s : RecState) (b : Blk) (nullifiers commitments : List Hash)
    (l1 : Nat) : RecState :=
  { blocks := { b with l1Reference := some l1 } :: s.blocks
    nullifiers := stampNullifiers s.nullifiers nullifiers b.blockHash
    tree := statelessUpdate s.tree commitments
    snapshots := (b.blockHash, s.tree) :: s.snapshots }

/-- Modelled from the spec: the Remove path of §4.5 / chain-reorgs.md —
the block must exist (absence is fatal), its `l1Reference` is nulled, its
nullifiers are unstamped, and the tree is rolled back to the snapshot
recorded immediately before that block's commitments were appended
(missing snapshot: fatal `TreeInconsistencyError`). -/
def removeBlockEvent (s : RecState) (h : Hash) : Except RecErr RecState :=
  match s.blocks.find? (fun b => b.blockHash = h) with
  | none => .error .fatalMissingBlock
  | some _ =>
    match s.snapshots.find? (fun p => p.1 = h) with
    | none => .error .treeInconsistency
    | some snap =>
      .ok { blocks := s.blocks.map (fun b =>
              if b.blockHash = h then { b with l1Reference := none } else b)
            nullifiers := unstampNullifiers s.nullifiers h
            tree := snap.2
            snapshots := s.snapshots }

/-! ## Commit-confirmation ordering (modelled from the spec, §4.4 step 4)

The challenge-commit event handler that triggers `revealChallenge` is not
among the provided sources; per §4.4/§5 a reveal is sent only on the
external confirmation signal that the matching commit transaction is
mined.  We model the coordinator as a transition system over the signal
stream and prove the ordering law over every interleaving. -/

/-- External signals the coordinator reacts to: a block invalidity
starting challenge `c` (commit sent), the confirmation that challenge
`c`'s commit transaction is mined, and unrelated chain noise (delays). -/
inductive ChainSignal where
  | invalidFound (c : Nat)
  | commitMined (c : Nat)
  | noise
deriving Repr, DecidableEq

/-- Messages the coordinator sends over the channel. -/
inductive WireMsg where
  | commitMsg (c : Nat)
  | revealMsg (c : Nat)
deriving Repr, DecidableEq

/-- Modelled from the spec: one coordinator step — an invalidity sends
the commit and marks the challenge pending; a commit-mined confirmation
for a pending challenge sends the reveal; everything else sends
nothing. -/
def coordinatorStep (pending : List Nat) : ChainSignal → List Nat × List WireMsg
  | .invalidFound c => (c :: pending, [.commitMsg c])
  | .commitMined c =>
    if c ∈ pending then (pending.erase c, [.revealMsg c]) else (pending, [])
  | .noise => (pending, [])

/-- The coordinator run over a signal stream, pairing each consumed
signal with the messages emitted while processing it. -/
def coordinatorTrace (pending : List Nat) :
    List ChainSignal → List (ChainSignal × List WireMsg)
  | [] => []
  | e :: rest =>
    let r := coordinatorStep pending e
    (e, r.2) :: coordinatorTrace r.1 rest

/-! ## Concrete fixtures used to exercise the embedding -/

/-- The empty store. -/
def emptyCStore : CStore := ⟨[], [], [], [], []⟩

/-- A transfer-type transaction spending nullifier 100. -/
def txB1c : Tx := ⟨11, 3, [], [100], [], 0, true⟩

/-- A transfer-type transaction spending the fresh nullifier 200 and,
again, nullifier 100 (the double-spend). -/
def txB2c : Tx := ⟨22, 3, [], [200, 100], [], 0, true⟩

/-- The incumbent live block, containing `txB1c`. -/
def B1c : Blk := ⟨1, 0, 0, 5, 0, 9, [11], some 50⟩

/-- The later live block under evaluation, containing `txB2c`. -/
def B2c : Blk := ⟨2, 1, 1, 6, 0, 9, [22], some 51⟩

/-- Store state at check time after `B2c` was stamped: its fresh
nullifier 200 is mined-stamped by `B2c` itself and happens to precede the
duplicate 100 (stamped by `B1c`) in store order. -/
def s4c : CStore := ⟨[B1c, B2c], [txB1c, txB2c], [⟨200, some 2⟩, ⟨100, some 1⟩], [], []⟩

/-- Store state where the duplicate 100 is the only mined nullifier of
the evaluated block present in the store. -/
def s4w : CStore := ⟨[B1c, B2c], [txB1c, txB2c], [⟨100, some 1⟩], [], []⟩

/-- Genesis block of the small case-0 scenario. -/
def blk0c : Blk := ⟨3, 0, 0, 7, 0, 9, [], some 50⟩

/-- A block at L2 number 0 under evaluation for a code-0 challenge. -/
def blkN0c : Blk := ⟨4, 0, 0, 8, 0, 9, [], some 52⟩

/-- A block at L2 number 1 under evaluation for a code-0 challenge. -/
def blkN1c : Blk := ⟨5, 3, 1, 9, 0, 9, [], some 53⟩

/-- Store holding blocks at L2 numbers 0 and 1 only. -/
def s10c : CStore := ⟨[blk0c, blkN1c], [], [], [], []⟩

/-- A small reconciliation state: one live block, one stamped nullifier,
a tree of four leaves and its per-block snapshot. -/
def rsC : RecState := ⟨[B1c], [⟨100, some 1⟩], ⟨4, 99, [99]⟩, [(1, ⟨0, 0, []⟩)]⟩

/-- First delivery of a code-2 invalidity for `B2c` (salt 41) on an open
channel. -/
def c5d1 : CStore × List ChalEv × CreateResult :=
  deliverInvalid emptyCStore (fun _ => true) true B2c [txB2c] ⟨2, 0, 0⟩ 41

/-- Second delivery of the same invalidity — same block hash, same error
code — with the fresh salt 42. -/
def c5d2 : CStore × List ChalEv × CreateResult :=
  deliverInvalid c5d1.1 (fun _ => true) true B2c [txB2c] ⟨2, 0, 0⟩ 42

/-! ## Helper lemmas -/

/-- `findIdx?` finds an index when some member satisfies the predicate,
whatever the starting offset. -/
theorem findIdx?_isSome_of_mem {α : Type} {p : α → Bool} :
    ∀ (l : List α) (i : Nat) (x : α), x ∈ l → p x = true →
      (List.findIdx? p l i).isSome = true := by
  intro l
  induction l with
  | nil => intro i x hx; cases hx
  | cons a t ih =>
    intro i x hx hp
    by_cases ha : p a = true
    · simp [List.findIdx?, ha]
    · rcases List.mem_cons.mp hx with rfl | hx
      · exact absurd hp ha
      · simpa [List.findIdx?, ha] using ih (i + 1) x hx hp

/-- `findIdx?` finds nothing when no member satisfies the predicate. -/
theorem findIdx?_eq_none_of_all {α : Type} {p : α → Bool} :
    ∀ (l : List α) (i : Nat), (∀ x ∈ l, p x = false) →
      List.findIdx? p l i = none := by
  intro l
  induction l with
  | nil => intro i _; rfl
  | cons a t ih =>
    intro i h
    have ha := h a (List.mem_cons_self a t)
    simp [List.findIdx?, ha]
    exact fun x hx => h x (List.mem_cons_of_mem a hx)

/-- The head of a filtered list, when the filter is inhabited and every
element passing it is the same value. -/
theorem head?_filter_eq {α : Type} {p : α → Bool} {l : List α} {a : α}
    (hne : ∃ x ∈ l, p x = true) (hall : ∀ x ∈ l, p x = true → x = a) :
    (l.filter p).head? = some a := by
  cases hfl : l.filter p with
  | nil =>
    rcases hne with ⟨x, hx, hp⟩
    have : x ∈ l.filter p := List.mem_filter.mpr ⟨hx, hp⟩
    rw [hfl] at this
    cases this
  | cons y t =>
    have hy : y ∈ l.filter p := by rw [hfl]; exact List.mem_cons_self y t
    rcases List.mem_filter.mp hy with ⟨hyl, hyp⟩
    simp [hall y hyl hyp]

/-- `firstNullifierIndexAux` succeeds whenever some transaction of the
list contains the nullifier. -/
theorem firstNullifierIndexAux_isSome {h : Hash} :
    ∀ (txs : List Tx) (i : Nat), (∃ t ∈ txs, h ∈ t.nullifiers) →
      (firstNullifierIndexAux h txs i).isSome = true := by
  intro txs
  induction txs with
  | nil => intro i hx; rcases hx with ⟨t, ht, _⟩; cases ht
  | cons a t ih =>
    intro i hx
    cases hj : List.findIdx? (fun x => decide (x = h)) a.nullifiers with
    | some j => simp [firstNullifierIndexAux, hj]
    | none =>
      rcases hx with ⟨u, hu, hun⟩
      rcases List.mem_cons.mp hu with rfl | hu
      · have hs := findIdx?_isSome_of_mem u.nullifiers 0 h hun
          (p := fun x => decide (x = h)) (by simp)
        rw [hj] at hs
        cases hs
      · simpa [firstNullifierIndexAux, hj] using ih (i + 1) ⟨u, hu, hun⟩

/-- `firstNullifierIndex` succeeds whenever the nullifier occurs in the
block's transactions. -/
theorem firstNullifierIndex_isSome {txs : List Tx} {h : Hash}
    (hx : h ∈ blockNullifiersOf txs) :
    (firstNullifierIndex txs h).isSome = true := by
  apply firstNullifierIndexAux_isSome txs 0
  rcases List.mem_flatten.mp hx with ⟨l, hl, hmem⟩
  rcases List.mem_map.mp hl with ⟨t, ht, rfl⟩
  exact ⟨t, ht, hmem⟩

/-- After stamping nullifier `n`, some record for `n` exists and is
stamped. -/
theorem stampOne_mem_stamped (recs : List NullRec) (h n : Hash) :
    ∃ r ∈ stampOne recs h n, r.hash = n ∧ r.blockHash.isSome = true := by
  unfold stampOne
  by_cases hany : recs.any (fun r => decide (r.hash = n)) = true
  · rcases List.any_eq_true.mp hany with ⟨x, hx, hpx⟩
    have hxn : x.hash = n := of_decide_eq_true hpx
    simp only [hany, if_pos]
    cases hb : x.blockHash with
    | none =>
      refine ⟨{ x with blockHash := some h }, ?_, hxn, rfl⟩
      exact List.mem_map.mpr ⟨x, hx, by simp [hxn, hb]⟩
    | some v =>
      refine ⟨x, ?_, hxn, by simp [hb]⟩
      exact List.mem_map.mpr ⟨x, hx, by simp [hb]⟩
  · simp only [hany, if_neg, Bool.not_eq_true]
    exact ⟨⟨n, some h⟩, by simp, rfl, rfl⟩

/-- Stamping some other nullifier preserves the existence of a stamped
record for `m`. -/
theorem stampOne_preserves_stamped (recs : List NullRec) (h n m : Hash)
    (hm : ∃ r ∈ recs, r.hash = m ∧ r.blockHash.isSome = true) :
    ∃ r ∈ stampOne recs h n, r.hash = m ∧ r.blockHash.isSome = true := by
  rcases hm with ⟨x, hx, hxm, hxs⟩
  unfold stampOne
  by_cases hany : recs.any (fun r => decide (r.hash = n)) = true
  · simp only [hany, if_pos]
    cases hb : x.blockHash with
    | none => rw [hb] at hxs; cases hxs
    | some v =>
      refine ⟨x, ?_, hxm, hxs⟩
      exact List.mem_map.mpr ⟨x, hx, by simp [hb]⟩
  · simp only [hany, if_neg, Bool.not_eq_true]
    exact ⟨x, List.mem_append_left _ hx, hxm, hxs⟩

/-- `stampNullifiers` preserves the existence of a stamped record. -/
theorem stampNullifiers_preserves_stamped (ns : List Hash) :
    ∀ (recs : List NullRec) (h m : Hash),
      (∃ r ∈ recs, r.hash = m ∧ r.blockHash.isSome = true) →
      ∃ r ∈ stampNullifiers recs ns h, r.hash = m ∧ r.blockHash.isSome = true := by
  induction ns with
  | nil => intro recs h m hm; exact hm
  | cons n rest ih =>
    intro recs h m hm
    exact ih (stampOne recs h n) h m (stampOne_preserves_stamped recs h n m hm)

/-- Every nullifier in the stamped batch ends up with a stamped record in
the store. -/
theorem stampNullifiers_mem_stamped (ns : List Hash) :
    ∀ (recs : List NullRec) (h : Hash) (nh : Hash), nh ∈ ns →
      ∃ r ∈ stampNullifiers recs ns h, r.hash = nh ∧ r.blockHash.isSome = true := by
  induction ns with
  | nil => intro recs h nh hnh; cases hnh
  | cons n rest ih =>
    intro recs h nh hnh
    rcases List.mem_cons.mp hnh with rfl | hnh
    · exact stampNullifiers_preserves_stamped rest (stampOne recs h nh) h nh
        (stampOne_mem_stamped recs h nh)
    · exact ih (stampOne recs h n) h nh hnh

/-- After unstamping block `h`, no record is stamped by `h`. -/
theorem unstampNullifiers_clears (recs : List NullRec) (h : Hash) :
    ∀ r ∈ unstampNullifiers recs h, r.blockHash ≠ some h := by
  intro r hr
  rcases List.mem_map.mp hr with ⟨x, _, rfl⟩
  by_cases hb : x.blockHash = some h
  · simp [hb]
  · simp [hb]

/-- `saveBlockStore` leaves a record for the block carrying the given L1
reference. -/
theorem saveBlockStore_mem {π : Type} (s : Store π) (l1 : Nat) (b : Blk) :
    ∃ b' ∈ (saveBlockStore s l1 b).blocks,
      b'.blockHash = b.blockHash ∧ b'.l1Reference = some l1 := by
  unfold saveBlockStore
  by_cases hany : s.blocks.any (fun x => decide (x.blockHash = b.blockHash)) = true
  · rcases List.any_eq_true.mp hany with ⟨x, hx, hpx⟩
    have hxb : x.blockHash = b.blockHash := of_decide_eq_true hpx
    simp only [hany, if_pos]
    refine ⟨{ b with l1Reference := some l1 }, ?_, rfl, rfl⟩
    exact List.mem_map.mpr ⟨x, hx, by simp [hxb]⟩
  · simp only [hany, if_neg, Bool.not_eq_true]
    exact ⟨{ b with l1Reference := some l1 }, by simp, rfl, rfl⟩

/-- `saveCommit` leaves the commit record in the store. -/
theorem saveCommit_mem {π : Type} [DecidableEq π] (s : Store π) (p : π) :
    p ∈ (saveCommit s p).commits := by
  unfold saveCommit
  by_cases h : s.commits.any (fun c => decide (c = p)) = true
  · rcases List.any_eq_true.mp h with ⟨x, hx, hpx⟩
    have hxp : x = p := of_decide_eq_true hpx
    simp only [h, if_pos]
    exact hxp ▸ hx
  · simp [h]

/-! ## Claim theorems -/

/-- C7: for every challenge the coordinator starts, `commitToChallenge`
persists the `{commitHash → payload}` record locally before anything goes
out on the channel: the persist is the first event of the trace, the
record is in the store even when the send later fails past the retry cap,
and every commit send strictly follows the persist. -/
theorem commit_persisted_before_any_send (s : CStore) (ready : Nat → Bool)
    (tx : Option ChallengeTx) :
    tx ∈ (runCommitToChallenge s ready tx).1.commits
    ∧ (runCommitToChallenge s ready tx).2.1.head? = some (.persistCommit tx)
    ∧ ∀ i p, (runCommitToChallenge s ready tx).2.1[i]? = some (.sendCommit p) →
        0 < i := by
  refine ⟨?_, ?_, ?_⟩
  · cases hk : firstOpen ready <;>
      simpa [runCommitToChallenge, hk] using saveCommit_mem s tx
  · cases hk : firstOpen ready <;> simp [runCommitToChallenge, hk]
  · intro i p hi
    cases i with
    | zero =>
      cases hk : firstOpen ready <;>
        simp [runCommitToChallenge, hk] at hi
    | succ n => exact Nat.succ_pos n

/-- C7 witness: a concrete run with an open channel persists first and
sends strictly afterwards. -/
theorem commit_persisted_before_any_send_witness :
    none ∈ (runCommitToChallenge emptyCStore (fun _ => true) none).1.commits ∧ 0 < 1 := by
  refine ⟨(commit_persisted_before_any_send emptyCStore (fun _ => true) none).1, ?_⟩
  exact (commit_persisted_before_any_send emptyCStore (fun _ => true) none).2.2 1 none
    (by decide)

/-- C8: for every Insert event the handler persists the block, stamps its
nonzero nullifiers and computes and saves the stateless tree update
strictly before the check runs; the resulting store is exactly the
post-mutation store (neither the checker nor the coordinator mutates
blocks, nullifiers or trees), the checker is invoked on the
post-application store and tree, and its verdict alone determines the
outcome. -/
theorem handler_mutates_store_before_check (s : CStore) (flag : Bool) (salt : Nat)
    (checker : CStore → Timber → Blk → List Tx → CheckOutcome)
    (l1 : Nat) (block : Blk) (txs : List Tx) :
    (blockProposedEventHandler s flag salt checker l1 block txs).1
        = handlerPostStore s l1 block txs
    ∧ (blockProposedEventHandler s flag salt checker l1 block txs).2.1.take 5
        = [.saveBlockE block.blockHash, .stampE (handlerNullifiers txs) block.blockHash,
           .mempoolE, .saveTreeE block.blockNumberL2, .checkE]
    ∧ (handlerPostStore s l1 block txs).trees.head?
        = some (block.blockNumberL2, handlerUpdatedTree s l1 block txs)
    ∧ (∃ b' ∈ (handlerPostStore s l1 block txs).blocks,
        b'.blockHash = block.blockHash ∧ b'.l1Reference = some l1)
    ∧ (∀ nh ∈ handlerNullifiers txs,
        ∃ r ∈ (handlerPostStore s l1 block txs).nullifiers,
          r.hash = nh ∧ r.blockHash.isSome = true)
    ∧ (blockProposedEventHandler s flag salt checker l1 block txs).2.2
        = (match checker (handlerPostStore s l1 block txs)
              (handlerUpdatedTree s l1 block txs) block txs with
           | .valid => .ok
           | .blockError e =>
             (match createChallenge (handlerPostStore s l1 block txs) flag block txs e salt with
              | .errored je => .crashed je
              | _ => .ok)
           | .failure msg => .rethrown msg) := by
  refine ⟨?_, ?_, rfl, ?_, ?_, ?_⟩
  · rcases h : checker (handlerPostStore s l1 block txs)
        (handlerUpdatedTree s l1 block txs) block txs with _ | e | m <;>
      simp [blockProposedEventHandler, h]
  · rcases h : checker (handlerPostStore s l1 block txs)
        (handlerUpdatedTree s l1 block txs) block txs with _ | e | m <;>
      simp [blockProposedEventHandler, h]
  · exact saveBlockStore_mem s l1 block
  · intro nh hnh
    exact stampNullifiers_mem_stamped (handlerNullifiers txs)
      (saveBlockStore s l1 block).nullifiers block.blockHash nh hnh
  · rcases h : checker (handlerPostStore s l1 block txs)
        (handlerUpdatedTree s l1 block txs) block txs with _ | e | m <;>
      simp [blockProposedEventHandler, h]

/-- C8 witness: the ordering and post-application facts at a concrete
event. -/
theorem handler_mutates_store_before_check_witness :
    (blockProposedEventHandler emptyCStore true 7
        (fun _ _ _ _ => .valid) 60 B2c [txB2c]).1
      = handlerPostStore emptyCStore 60 B2c [txB2c]
    ∧ ∃ r ∈ (handlerPostStore emptyCStore 60 B2c [txB2c]).nullifiers,
        r.hash = 200 ∧ r.blockHash.isSome = true := by
  refine ⟨(handler_mutates_store_before_check emptyCStore true 7
    (fun _ _ _ _ => .valid) 60 B2c [txB2c]).1, ?_⟩
  exact (handler_mutates_store_before_check emptyCStore true 7
    (fun _ _ _ _ => .valid) 60 B2c [txB2c]).2.2.2.2.1 200 (by decide)

/-- C9: toggling challenge production off suppresses only challenges not
yet started — with the flag off `createChallenge` declines, adds no
commit record and sends nothing — while `revealChallenge` never consults
the flag, so a reveal for an already-sent commit runs to completion after
either toggle. -/
theorem toggle_gates_only_new_challenges (c : CoordinatorCfg) (s : CStore)
    (ready : Nat → Bool) (block : Blk) (txs : List Tx) (err : BlockErrorData)
    (salt : Nat) (p : Option ChallengeTx) (k : Nat) :
    createChallenge s false block txs err salt = .declined
    ∧ deliverInvalid s ready false block txs err salt = (s, [], .declined)
    ∧ revealRun (stopMakingChallenges c) ready p = revealChallenge ready p
    ∧ revealRun (startMakingChallenges c) ready p = revealChallenge ready p
    ∧ (firstOpen ready = some k →
        revealChallenge ready p
          = (List.replicate k .warnClosed ++ [.sendChallenge p], none)) := by
  refine ⟨rfl, ?_, rfl, rfl, ?_⟩
  · simp [deliverInvalid, createChallenge]
  · intro hk
    simp [revealChallenge, hk]

/-- C9 witness: at a concrete invalidity and an open channel, the
disabled coordinator changes nothing and the reveal still completes. -/
theorem toggle_gates_only_new_challenges_witness :
    deliverInvalid emptyCStore (fun _ => true) false B2c [txB2c] ⟨2, 0, 0⟩ 7
      = (emptyCStore, [], .declined)
    ∧ revealChallenge (fun _ => true) none = ([.sendChallenge none], none) := by
  refine ⟨(toggle_gates_only_new_challenges ⟨true⟩ emptyCStore (fun _ => true)
    B2c [txB2c] ⟨2, 0, 0⟩ 7 none 0).2.1, ?_⟩
  have h := (toggle_gates_only_new_challenges ⟨true⟩ emptyCStore (fun _ => true)
    B2c [txB2c] ⟨2, 0, 0⟩ 7 none 0).2.2.2.2 (by rfl)
  simpa using h

/-- C5 counterexample: delivering the same invalidity (block `B2c`,
error code 2) to `createChallenge` twice produces two commit records and
two commit messages — the coordinator has no per-(blockHash, errorCode)
dedupe, so it is not idempotent. -/
theorem redelivery_duplicate_commit_counterexample :
    c5d2.1.commits
      = [some (.transactionType B2c [txB2c] 0 41),
         some (.transactionType B2c [txB2c] 0 42)]
    ∧ ChalEv.sendCommit (some (.transactionType B2c [txB2c] 0 41)) ∈ c5d1.2.1
    ∧ ChalEv.sendCommit (some (.transactionType B2c [txB2c] 0 42)) ∈ c5d2.2.1 := by
  decide

/-- C5 amended: every delivery made while challenges are enabled draws a
fresh salt, so it builds a fresh payload whose commit is appended to the
store and sent once — re-delivery of the same (blockHash, errorCode)
yields an additional commit rather than none. -/
theorem each_delivery_appends_one_commit (s : CStore) (ready : Nat → Bool)
    (block : Blk) (txs : List Tx) (err : BlockErrorData) (salt : Nat)
    (p : Option ChallengeTx) (k : Nat)
    (hb : createChallenge s true block txs err salt = .challenged p)
    (hp : p ∉ s.commits)
    (hk : firstOpen ready = some k) :
    (deliverInvalid s ready true block txs err salt).1.commits = s.commits ++ [p]
    ∧ (deliverInvalid s ready true block txs err salt).2.1
        = .persistCommit p :: (List.replicate k .warnClosed ++ [.sendCommit p]) := by
  have hany : s.commits.any (fun c => decide (c = p)) = false := by
    rw [Bool.eq_false_iff]
    intro hcontra
    rcases List.any_eq_true.mp hcontra with ⟨x, hx, hpx⟩
    exact hp (of_decide_eq_true hpx ▸ hx)
  have hsc : (saveCommit s p).commits = s.commits ++ [p] := by
    simp [saveCommit, hany]
  constructor
  · simp [deliverInvalid, hb, runCommitToChallenge, hk, hsc]
  · simp [deliverInvalid, hb, runCommitToChallenge, hk]

/-- C5 amended witness: the first delivery on an empty store appends
exactly its own commit. -/
theorem each_delivery_appends_one_commit_witness :
    (deliverInvalid emptyCStore (fun _ => true) true B2c [txB2c] ⟨2, 0, 0⟩ 41).1.commits
      = [some (.transactionType B2c [txB2c] 0 41)] := by
  have h := each_delivery_appends_one_commit emptyCStore (fun _ => true) B2c [txB2c]
    ⟨2, 0, 0⟩ 41 (some (.transactionType B2c [txB2c] 0 41)) 0 (by rfl) (by decide) (by rfl)
  simpa using h.1

/-- `firstOpenAux` exhausts its fuel over a channel closed throughout the
polled window. -/
theorem firstOpenAux_eq_none (ready : Nat → Bool) :
    ∀ (fuel start : Nat), (∀ k, start ≤ k → k < start + fuel → ready k = false) →
      firstOpenAux ready start fuel = none := by
  intro fuel
  induction fuel with
  | zero => intro start _; rfl
  | succ n ih =>
    intro start h
    have h0 : ready start = false := h start le_rfl (by omega)
    simp only [firstOpenAux, h0, Bool.false_eq_true, if_false]
    exact ih (start + 1) (fun k hk1 hk2 => h k (by omega) (by omega))

/-- The polling loop fails when the channel never opens within the 102
checks of the retry cap. -/
theorem firstOpen_eq_none (ready : Nat → Bool)
    (h : ∀ k, k < 102 → ready k = false) : firstOpen ready = none :=
  firstOpenAux_eq_none ready 102 0 (fun k _ hk2 => h k (by omega))

/-- C6 counterexample: when the channel never opens, the retry loop
throws the generic `Error('Websocket to challenger has failed')` — not a
`ChannelUnavailableError` — and the trace of the attempt contains only
the persist and the 102 closed-channel warnings, so the failure itself is
never logged. -/
theorem retry_cap_generic_unlogged_error_counterexample :
    (runCommitToChallenge emptyCStore (fun _ => false) none).2.2
      = some (.errorMsg "Websocket to challenger has failed")
    ∧ (runCommitToChallenge emptyCStore (fun _ => false) none).2.1
      = .persistCommit none :: List.replicate 102 .warnClosed
    ∧ "Websocket to challenger has failed" ≠ "ChannelUnavailableError" := by
  refine ⟨by rfl, by rfl, by decide⟩

/-- C6 amended: past the retry cap the attempt fails with the generic
websocket error after exactly 102 fixed-interval polls, the commit record
remains persisted, and only that attempt is abandoned — the engine-side
result of the delivery is unchanged because the commit task is never
awaited. -/
theorem retry_cap_abandons_only_the_attempt (s : CStore) (ready : Nat → Bool)
    (tx p : Option ChallengeTx) (block : Blk) (txs : List Tx)
    (err : BlockErrorData) (salt : Nat)
    (hclosed : ∀ k, k < 102 → ready k = false)
    (hb : createChallenge s true block txs err salt = .challenged p) :
    runCommitToChallenge s ready tx
      = (saveCommit s tx, .persistCommit tx :: List.replicate 102 .warnClosed,
         some (.errorMsg "Websocket to challenger has failed"))
    ∧ (deliverInvalid s ready true block txs err salt).2.2 = .challenged p := by
  have hnone : firstOpen ready = none := firstOpen_eq_none ready hclosed
  constructor
  · simp [runCommitToChallenge, hnone]
  · simp [deliverInvalid, hb]

/-- C6 amended witness: a delivery over a never-open channel still
reports the challenge as handed off. -/
theorem retry_cap_abandons_only_the_attempt_witness :
    (deliverInvalid emptyCStore (fun _ => false) true B2c [txB2c] ⟨2, 0, 0⟩ 41).2.2
      = .challenged (some (.transactionType B2c [txB2c] 0 41)) :=
  (retry_cap_abandons_only_the_attempt emptyCStore (fun _ => false) none
    (some (.transactionType B2c [txB2c] 0 41)) B2c [txB2c] ⟨2, 0, 0⟩ 41
    (fun _ _ => rfl) (by rfl)).2

/-- C10 counterexample: for a code-0 challenge on a block at L2 number 0
(which is below 2), `createChallenge` does not throw the `TypeError` of
the null-root assignment: the prior-block lookup at L2 number −1 already
fails and an explicit `Error('Could not find prior block…')` is thrown
first. -/
theorem case0_block_zero_counterexample :
    createChallenge s10c true blkN0c [] ⟨0, 0, 0⟩ 77
      = .errored (.errorMsg "Could not find prior block")
    ∧ JsError.errorMsg "Could not find prior block" ≠ JsError.typeErrorNull
    ∧ blkN0c.blockNumberL2 < 2 := by
  refine ⟨by rfl, by decide, by decide⟩

/-- C10 amended: whenever the prior block is found but the block two
positions earlier is not — in particular for every block at L2 number 1
over a store holding only numbers ≥ 0 — the source assigns `.root` on the
`null` lookup result and challenge construction throws a `TypeError`, so
the zero-root fallback never executes; at L2 number 0 the earlier
missing-prior-block check throws a plain `Error` instead. -/
theorem case0_null_prior_prior_type_error (s : CStore) (block : Blk)
    (txs : List Tx) (err : BlockErrorData) (salt : Nat) (pb : Blk)
    (hc : err.code = 0)
    (h1 : getBlockByBlockNumberL2 s (block.blockNumberL2 - 1) = some pb)
    (h2 : getBlockByBlockNumberL2 s (block.blockNumberL2 - 2) = none) :
    createChallenge s true block txs err salt = .errored .typeErrorNull := by
  obtain ⟨code, i, th⟩ := err
  simp only [BlockErrorData.code] at hc
  subst hc
  simp [createChallenge, buildChallengeTx, buildCase0, h1, h2, Except.map]

/-- C10 amended witness: the concrete crash at L2 number 1. -/
theorem case0_null_prior_prior_type_error_witness :
    createChallenge s10c true blkN1c [] ⟨0, 0, 0⟩ 77 = .errored .typeErrorNull :=
  case0_null_prior_prior_type_error s10c blkN1c [] ⟨0, 0, 0⟩ 77 blk0c rfl
    (by decide) (by decide)

/-- C2 counterexample: a code-0 `BlockError` on a block at L2 number 1
(prior block present, block −1 absent) is handed to `createChallenge`,
whose own `TypeError` escapes the handler — the event handler does crash
on this `BlockError`. -/
theorem blockerror_handler_crash_counterexample :
    (blockProposedEventHandler s10c true 7
        (fun _ _ _ _ => .blockError ⟨0, 0, 0⟩) 60 blkN1c []).2.2
      = .crashed .typeErrorNull := by
  decide

/-- C2 amended: a thrown `BlockError` of any code leaves the block
persisted and is handed to the Challenge Coordinator, and the handler
returns normally provided `createChallenge` itself completes (its own
throw escapes the handler); a non-`BlockError` failure is re-thrown. -/
theorem blockerror_routed_and_other_failures_rethrown (s : CStore) (flag : Bool)
    (salt : Nat) (checker : CStore → Timber → Blk → List Tx → CheckOutcome)
    (l1 : Nat) (block : Blk) (txs : List Tx) :
    (∀ e, checker (handlerPostStore s l1 block txs)
          (handlerUpdatedTree s l1 block txs) block txs = .blockError e →
      (∀ je, createChallenge (handlerPostStore s l1 block txs) flag block txs e salt
          ≠ .errored je) →
      (blockProposedEventHandler s flag salt checker l1 block txs).2.2 = .ok
      ∧ HEffect.challengeE e.code
          ∈ (blockProposedEventHandler s flag salt checker l1 block txs).2.1
      ∧ ∃ b' ∈ (blockProposedEventHandler s flag salt checker l1 block txs).1.blocks,
          b'.blockHash = block.blockHash)
    ∧ (∀ msg, checker (handlerPostStore s l1 block txs)
          (handlerUpdatedTree s l1 block txs) block txs = .failure msg →
        (blockProposedEventHandler s flag salt checker l1 block txs).2.2
          = .rethrown msg) := by
  constructor
  · intro e he hje
    refine ⟨?_, ?_, ?_⟩
    · rcases hcc : createChallenge (handlerPostStore s l1 block txs) flag block txs e salt
        with q | _ | je
      · simp [blockProposedEventHandler, he, hcc]
      · simp [blockProposedEventHandler, he, hcc]
      · exact absurd hcc (hje je)
    · simp [blockProposedEventHandler, he]
    · rcases saveBlockStore_mem s l1 block with ⟨b', hb', hbh, _⟩
      refine ⟨b', ?_, hbh⟩
      have hfst : (blockProposedEventHandler s flag salt checker l1 block txs).1
          = handlerPostStore s l1 block txs := by
        simp [blockProposedEventHandler, he]
      rw [hfst]
      exact hb'
  · intro msg hm
    simp [blockProposedEventHandler, hm]

/-- C2 amended witness: with challenge production off the coordinator
cannot throw, and a concrete `BlockError` is handled without crashing. -/
theorem blockerror_routed_witness :
    (blockProposedEventHandler s10c false 7
        (fun _ _ _ _ => .blockError ⟨0, 0, 0⟩) 60 blkN1c []).2.2 = .ok := by
  have h := (blockerror_routed_and_other_failures_rethrown s10c false 7
    (fun _ _ _ _ => .blockError ⟨0, 0, 0⟩) 60 blkN1c []).1 ⟨0, 0, 0⟩ rfl
    (fun je hcontra => by simp [createChallenge] at hcontra)
  exact h.1

/-- C1: over every signal interleaving — confirmations delayed by
arbitrary noise included — the coordinator emits a reveal message for
challenge `c` only at the step that processes the external confirmation
that `c`'s commit transaction is mined; no reveal is ever sent before its
matching commit-confirmation signal is observed. -/
theorem reveal_sent_only_on_commit_confirmation (sigs : List ChainSignal) (c : Nat) :
    ∀ (pending : List Nat) (e : ChainSignal) (out : List WireMsg),
      (e, out) ∈ coordinatorTrace pending sigs →
      WireMsg.revealMsg c ∈ out → e = .commitMined c := by
  induction sigs with
  | nil => intro pending e out hmem _; cases hmem
  | cons a rest ih =>
    intro pending e out hmem hrev
    simp only [coordinatorTrace] at hmem
    rcases List.mem_cons.mp hmem with heq | hmem'
    · have he : e = a := congrArg Prod.fst heq
      have ho : out = (coordinatorStep pending a).2 := congrArg Prod.snd heq
      subst he
      rw [ho] at hrev
      cases e with
      | invalidFound c' => simp [coordinatorStep] at hrev
      | commitMined c' =>
        by_cases hcp : c' ∈ pending
        · simp only [coordinatorStep, hcp, if_pos, List.mem_singleton,
            WireMsg.revealMsg.injEq] at hrev
          simp [hrev]
        · simp [coordinatorStep, hcp] at hrev
      | noise => simp [coordinatorStep] at hrev
    · exact ih _ e out hmem' hrev

/-- C1 witness: a concrete run with a delayed confirmation: the reveal
step is precisely the commit-confirmation step. -/
theorem reveal_sent_only_on_commit_confirmation_witness :
    ((ChainSignal.commitMined 1, [WireMsg.revealMsg 1]) ∈ coordinatorTrace []
        [ChainSignal.invalidFound 1, ChainSignal.noise, ChainSignal.commitMined 1])
    ∧ ChainSignal.commitMined 1 = ChainSignal.commitMined 1 := by
  refine ⟨by decide, ?_⟩
  exact reveal_sent_only_on_commit_confirmation
    [ChainSignal.invalidFound 1, ChainSignal.noise, ChainSignal.commitMined 1] 1
    [] (ChainSignal.commitMined 1) [WireMsg.revealMsg 1] (by decide) (by decide)

/-- C3: a Remove for an unknown block is the fatal inconsistency; and
removing a just-inserted block nulls its `l1Reference`, unstamps every
nullifier stamped by it, and rolls the tree back to the snapshot recorded
immediately before that block's commitments were appended — `leafCount`
in particular returns to the exact value it had before the append. -/
theorem remove_event_restores_pre_block_state (s : RecState) (h : Hash)
    (b : Blk) (ns cs : List Hash) (l1 : Nat) :
    (s.blocks.find? (fun x => x.blockHash = h) = none →
      removeBlockEvent s h = .error .fatalMissingBlock)
    ∧ (insertBlockEvent s b ns cs l1).tree.leafCount = s.tree.leafCount + cs.length
    ∧ ∃ s', removeBlockEvent (insertBlockEvent s b ns cs l1) b.blockHash = .ok s'
        ∧ s'.tree = s.tree
        ∧ s'.tree.leafCount = s.tree.leafCount
        ∧ (∀ r ∈ s'.nullifiers, r.blockHash ≠ some b.blockHash)
        ∧ (∀ x ∈ s'.blocks, x.blockHash = b.blockHash → x.l1Reference = none) := by
  refine ⟨?_, rfl, ?_⟩
  · intro hnone
    simp [removeBlockEvent, hnone]
  · have hfind : (insertBlockEvent s b ns cs l1).blocks.find?
        (fun x => decide (x.blockHash = b.blockHash))
        = some { b with l1Reference := some l1 } := by
      show List.find? _ ({ b with l1Reference := some l1 } :: s.blocks) = _
      exact List.find?_cons_of_pos _ (by simp)
    have hsnap : (insertBlockEvent s b ns cs l1).snapshots.find?
        (fun p => decide (p.1 = b.blockHash)) = some (b.blockHash, s.tree) := by
      show List.find? _ ((b.blockHash, s.tree) :: s.snapshots) = _
      exact List.find?_cons_of_pos _ (by simp)
    refine ⟨⟨(insertBlockEvent s b ns cs l1).blocks.map
        (fun x => if x.blockHash = b.blockHash then { x with l1Reference := none } else x),
      unstampNullifiers (insertBlockEvent s b ns cs l1).nullifiers b.blockHash,
      s.tree, (insertBlockEvent s b ns cs l1).snapshots⟩, ?_, rfl, rfl, ?_, ?_⟩
    · simp only [removeBlockEvent, hfind, hsnap]
    · exact unstampNullifiers_clears _ _
    · intro x hx hxb
      rcases List.mem_map.mp hx with ⟨y, _, rfl⟩
      by_cases hyb : y.blockHash = b.blockHash
      · simp [hyb]
      · rw [if_neg hyb] at hxb
        exact absurd hxb hyb

/-- C3 witness: the fatal missing-block case and a concrete
insert-then-remove round trip restoring the pre-insert tree. -/
theorem remove_event_restores_pre_block_state_witness :
    removeBlockEvent rsC 77 = .error .fatalMissingBlock
    ∧ ∃ s', removeBlockEvent (insertBlockEvent rsC B2c [200, 100] [42, 43] 51) 2 = .ok s'
        ∧ s'.tree = rsC.tree := by
  obtain ⟨h1, _, s', hok, htree, _⟩ :=
    remove_event_restores_pre_block_state rsC 77 B2c [200, 100] [42, 43] 51
  exact ⟨h1 (by decide), s', hok, htree⟩

/-- C4 counterexample: `B1c` and `B2c` are distinct live blocks both
containing nullifier 100, and ingesting `B2c` does produce exactly one
Invalid, with code 6 — but the code-6 payload references `B2c` itself,
the block under evaluation: its fresh nullifier 200, stamped by `B2c`
when the handler stamped the block before checking it, precedes the
duplicate in the mined-nullifier store, and the case-6 filter does not
exclude records stamped by the block under evaluation. -/
theorem duplicate_nullifier_self_reference_counterexample :
    checkBlock s4c ⟨0, 6, []⟩ B2c [txB2c] = .blockError ⟨6, 1, 100⟩
    ∧ createChallenge s4c true B2c [txB2c] ⟨6, 1, 100⟩ 77
        = .challenged (some (.nullifier B2c [txB2c] 0 0 B2c [txB2c] 0 0 77))
    ∧ B1c.blockHash ≠ B2c.blockHash
    ∧ B1c.l1Reference.isSome = true ∧ B2c.l1Reference.isSome = true
    ∧ (100 : Hash) ∈ blockNullifiersOf [txB1c]
    ∧ (100 : Hash) ∈ blockNullifiersOf [txB2c] := by
  decide

/-- C4 amended: ingesting the second of two distinct live blocks sharing
a nullifier yields exactly one Invalid, with code 6, and the code-6
payload references the block stamping the first matching record of the
mined-nullifier store: whenever the duplicate's record is the only mined
record among the evaluated block's nullifiers — in particular when none
of the evaluated block's own nullifiers occupy earlier store positions —
that is the incumbent first block, never the block under evaluation. -/
theorem duplicate_nullifier_invalid6_references_incumbent
    (s : CStore) (tree : Timber) (block : Blk) (txs : List Tx) (bOld : Blk)
    (x : Hash) (err : BlockErrorData) (salt : Nat) (oIdx oNul : Nat)
    (hroot : tree.root = block.root)
    (hnodup : duplicateTxIdx s block = none)
    (htype : ∀ t ∈ txs, t.transactionType < 4)
    (hhist : ∀ t ∈ txs, badHistoricTx s t = false)
    (hproof : ∀ t ∈ txs, t.proofOk = true)
    (hxmem : x ∈ blockNullifiersOf txs)
    (hrec : (⟨x, some bOld.blockHash⟩ : NullRec) ∈ s.nullifiers)
    (honly : ∀ r ∈ s.nullifiers, r.blockHash.isSome = true →
        r.hash ∈ blockNullifiersOf txs → r = ⟨x, some bOld.blockHash⟩)
    (hold : getBlockByBlockHash s bOld.blockHash = some bOld)
    (hlive : bOld.l1Reference.isSome = true)
    (hne : bOld.blockHash ≠ block.blockHash)
    (holdidx : firstNullifierIndex
        (getTransactionsByTransactionHashes s bOld.transactionHashes) x = some (oIdx, oNul))
    (hcode : err.code = 6) :
    (∃ i nh, checkBlock s tree block txs = .blockError ⟨6, i, nh⟩)
    ∧ ∃ ci cn, createChallenge s true block txs err salt
        = .challenged (some (.nullifier block txs ci cn bOld
            (getTransactionsByTransactionHashes s bOld.transactionHashes) oIdx oNul salt)) := by
  have h2 : List.findIdx? (fun t => decide (4 ≤ t.transactionType)) txs 0 = none :=
    findIdx?_eq_none_of_all txs 0
      (fun t ht => decide_eq_false (Nat.not_le.mpr (htype t ht)))
  have h3 : List.findIdx? (badHistoricTx s) txs 0 = none :=
    findIdx?_eq_none_of_all txs 0 hhist
  have h4 : List.findIdx? (fun t => !t.proofOk) txs 0 = none :=
    findIdx?_eq_none_of_all txs 0 (fun t ht => by simp [hproof t ht])
  have hlx : liveStampedByOther s block.blockHash x = true := by
    apply List.any_eq_true.mpr
    refine ⟨⟨x, some bOld.blockHash⟩, hrec, ?_⟩
    simp [hne, hold, hlive]
  have h6some : (List.findIdx? (liveStampedByOther s block.blockHash)
      (blockNullifiersOf txs) 0).isSome = true :=
    findIdx?_isSome_of_mem (blockNullifiersOf txs) 0 x hxmem hlx
  rcases Option.isSome_iff_exists.mp h6some with ⟨i, hi⟩
  constructor
  · refine ⟨i, (blockNullifiersOf txs).getD i 0, ?_⟩
    simp [checkBlock, hroot, hnodup, h2, h3, h4, blockNullifiersOf] at hi ⊢
    simp [hi]
  · have hhead : ((retrieveMinedNullifiers s).filter
        (fun sN => ((txs.map (fun t => t.nullifiers)).flatten).contains sN.hash)).head?
        = some ⟨x, some bOld.blockHash⟩ := by
      apply head?_filter_eq
      · refine ⟨⟨x, some bOld.blockHash⟩, ?_, ?_⟩
        · exact List.mem_filter.mpr ⟨hrec, rfl⟩
        · simpa [blockNullifiersOf] using List.elem_iff.mpr hxmem
      · intro r hr hpr
        rcases List.mem_filter.mp hr with ⟨hr1, hr2⟩
        exact honly r hr1 hr2 (by simpa [blockNullifiersOf] using List.elem_iff.mp hpr)
    have hcur : (firstNullifierIndex txs x).isSome = true :=
      firstNullifierIndex_isSome hxmem
    rcases Option.isSome_iff_exists.mp hcur with ⟨p, hci⟩
    obtain ⟨ci, cn⟩ := p
    refine ⟨ci, cn, ?_⟩
    obtain ⟨code, mi, mth⟩ := err
    simp only [BlockErrorData.code] at hcode
    subst hcode
    simp only [createChallenge, buildChallengeTx, buildCase6, hhead, hold, holdidx, hci]
    simp

/-- C4 amended witness: with the duplicate as the only matching mined
record, the payload references the incumbent `B1c`, not `B2c`. -/
theorem duplicate_nullifier_invalid6_references_incumbent_witness :
    ∃ ci cn, createChallenge s4w true B2c [txB2c] ⟨6, 0, 0⟩ 77
        = .challenged (some (.nullifier B2c [txB2c] ci cn B1c [txB1c] 0 0 77)) := by
  have h := duplicate_nullifier_invalid6_references_incumbent s4w ⟨0, 6, []⟩ B2c [txB2c]
    B1c 100 ⟨6, 0, 0⟩ 77 0 0 rfl (by decide) (by decide) (by decide) (by decide)
    (by decide) (by decide) (by decide) (by decide) (by decide) (by decide) (by decide) rfl
  exact h.2

end Nightfall
